import Mathlib

/-!
# Verification of the liquidity-management numerical core

Shallow embedding of the repository's numerical engine:

* `src/uniswap_v3.py` — tick ⇄ sqrt-price conversion and liquidity → amount
  decomposition (`UniswapV3Tracker`);
* `src/price_fetcher.py` — layered USD price resolution with a TTL cache
  (`PriceFetcher`).

Modelling conventions:

* Python arbitrary-precision `int` is `ℤ` (or `ℕ` for fee tiers / decimals);
  Python `//` (floor division) is `Int.fdiv`; a Python `ZeroDivisionError`
  is modelled by an `Option` result.
* Python `float` and `Decimal` arithmetic on prices, fees and timestamps is
  modelled exactly over `ℚ`; `math.sqrt` over exact reals (`Real.sqrt`).
  `int(x)` for the non-negative `x` arising here is `Int.floor`.
* External capabilities (the CoinGecko HTTP endpoint and every web3
  contract call) are parameters of the model, and each invocation is
  recorded in an event trace, so "no external call happens" is a statement
  about the trace.
* `Web3.to_checksum_address` is modelled as the identity: every address in
  the model is already in canonical checksummed form (as the constants in
  the source are).
-/

namespace LiquidityMgmt

/-! ## FixedPointMath (`src/uniswap_v3.py`) -/

/-- `UniswapV3Tracker._get_sqrt_ratio_at_tick`:
`int(math.sqrt(1.0001 ** tick) * (2 ** 96))`, with the floating-point
computation modelled over the exact reals.  The value is non-negative, so
Python's truncating `int` agrees with `Int.floor`. -/
noncomputable def get_sqrt_ratio_at_tick (tick : ℤ) : ℤ :=
  ⌊Real.sqrt ((1.0001 : ℝ) ^ tick) * 2 ^ 96⌋

/-- Modelled from the spec: the spec's `sqrt_price_at_tick` "fails with
`TickOutOfRange` if tick is outside [-887272, 887272]"; `none` is the
`TickOutOfRange` failure.  This checked variant does not exist in the
source (`_get_sqrt_ratio_at_tick` performs no range validation); it is
stated only to compare the spec's words with the code. -/
noncomputable def sqrt_price_at_tick_spec (tick : ℤ) : Option ℤ :=
  if -887272 ≤ tick ∧ tick ≤ 887272 then some (get_sqrt_ratio_at_tick tick)
  else none

/-- `UniswapV3Tracker._get_amount0_delta`.  The division
`numerator // denominator` is unguarded in the source; `none` models the
`ZeroDivisionError` raised when `denominator == 0`. -/
def get_amount0_delta (sqrt_ratio_a sqrt_ratio_b liquidity : ℤ) : Option ℤ :=
  let p : ℤ × ℤ :=
    if sqrt_ratio_a > sqrt_ratio_b then (sqrt_ratio_b, sqrt_ratio_a)
    else (sqrt_ratio_a, sqrt_ratio_b)
  let numerator := liquidity * 2 ^ 96 * (p.2 - p.1)
  let denominator := p.2 * p.1
  if denominator = 0 then none else some (numerator.fdiv denominator)

/-- `UniswapV3Tracker._get_amount1_delta`.  The divisor `2 ** 96` is a
nonzero constant, so this function is total. -/
def get_amount1_delta (sqrt_ratio_a sqrt_ratio_b liquidity : ℤ) : ℤ :=
  let p : ℤ × ℤ :=
    if sqrt_ratio_a > sqrt_ratio_b then (sqrt_ratio_b, sqrt_ratio_a)
    else (sqrt_ratio_a, sqrt_ratio_b)
  (liquidity * (p.2 - p.1)).fdiv (2 ^ 96)

/-! ## PositionValuation (`src/uniswap_v3.py`) -/

/-- `PositionValue` (the four fields `calculate_position_amounts`
populates; the three optional USD fields stay `None` there). -/
structure PositionValue where
  amount0 : ℚ
  amount1 : ℚ
  unclaimed_fees0 : ℚ
  unclaimed_fees1 : ℚ
  deriving DecidableEq, Repr

/-- `UniswapV3Tracker._calculate_position_amounts_from_liquidity`.
`Decimal(amount) / Decimal(10 ** decimals)` is modelled exactly over `ℚ`.
A `none` result propagates the `ZeroDivisionError` of
`_get_amount0_delta`. -/
noncomputable def calculate_position_amounts_from_liquidity
    (liquidity sqrt_price_x96 tick_lower tick_upper : ℤ)
    (decimals0 decimals1 : ℕ) : Option (ℚ × ℚ) :=
  let sqrt_ratio_a := get_sqrt_ratio_at_tick tick_lower
  let sqrt_ratio_b := get_sqrt_ratio_at_tick tick_upper
  if sqrt_price_x96 ≤ sqrt_ratio_a then
    (get_amount0_delta sqrt_ratio_a sqrt_ratio_b liquidity).map fun amount0 =>
      ((amount0 : ℚ) / 10 ^ decimals0, (0 : ℚ) / 10 ^ decimals1)
  else if sqrt_ratio_b ≤ sqrt_price_x96 then
    some ((0 : ℚ) / 10 ^ decimals0,
      (get_amount1_delta sqrt_ratio_a sqrt_ratio_b liquidity : ℚ) / 10 ^ decimals1)
  else
    (get_amount0_delta sqrt_price_x96 sqrt_ratio_b liquidity).map fun amount0 =>
      ((amount0 : ℚ) / 10 ^ decimals0,
        (get_amount1_delta sqrt_ratio_a sqrt_price_x96 liquidity : ℚ) / 10 ^ decimals1)

/-- `UniswapV3Tracker.calculate_position_amounts`.  The pool's
`slot0` read is an external capability; its first component
(`sqrt_price_x96`) is passed in as a parameter.  In the
`liquidity == 0` branch the source returns `tokens_owed0`/`tokens_owed1`
unscaled; in the other branch it divides them by `10 ** decimals`. -/
noncomputable def calculate_position_amounts
    (liquidity : ℤ) (tokens_owed0 tokens_owed1 : ℚ)
    (tick_lower tick_upper : ℤ) (decimals0 decimals1 : ℕ)
    (sqrt_price_x96 : ℤ) : Option PositionValue :=
  if liquidity = 0 then
    some ⟨0, 0, tokens_owed0, tokens_owed1⟩
  else
    (calculate_position_amounts_from_liquidity liquidity sqrt_price_x96
        tick_lower tick_upper decimals0 decimals1).map fun amounts =>
      ⟨amounts.1, amounts.2,
        tokens_owed0 / 10 ^ decimals0, tokens_owed1 / 10 ^ decimals1⟩

/-! ## PriceFetcher data (`src/price_fetcher.py`) -/

/-- The two chains configured in `PriceFetcher.COMMON_TOKENS`.  Any other
chain string raises `KeyError` in the source; the claims quantify over
configured chains only. -/
inductive Chain
  | ethereum
  | arbitrum
  deriving DecidableEq, Repr

/-- `PriceFetcher.COMMON_TOKENS[chain]` as an association list
symbol ↦ checksummed address. -/
def CommonTokens : Chain → List (String × String)
  | .ethereum =>
    [("WETH", "0xC02aaA39b223FE8D0A0e5C4F27eAD9083C756Cc2"),
     ("USDC", "0xA0b86991c6218b36c1d19D4a2e9Eb0cE3606eB48"),
     ("USDT", "0xdAC17F958D2ee523a2206206994597C13D831ec7"),
     ("DAI", "0x6B175474E89094C44Da98b954EedeAC495271d0F"),
     ("WBTC", "0x2260FAC5E5542a773Aa44fBCfeDf7C193bc2C599")]
  | .arbitrum =>
    [("WETH", "0x82aF49447D8a07e3bd95BD0d56f35241523fBab1"),
     ("USDC", "0xaf88d065e77c8cC2239327C5EDb3A432268e5831"),
     ("USDT", "0xFd086bC7CD5C481DCC9C85ebE478A1C0b69FCbb9"),
     ("DAI", "0xDA10009cBd5D07dd0CeCc66161FC93D7c9000da1"),
     ("WBTC", "0x2f2a2543B76A4166549F7aaB2e75Bef0aefC5B0f"),
     ("ARB", "0x912CE59144191C1204E64559FE8253a0e49E6548")]

/-- `PriceFetcher.COINGECKO_IDS` as a lookup address ↦ CoinGecko id. -/
def coingecko_ids (address : String) : Option String :=
  List.lookup address
    [("0xC02aaA39b223FE8D0A0e5C4F27eAD9083C756Cc2", "ethereum"),
     ("0x82aF49447D8a07e3bd95BD0d56f35241523fBab1", "ethereum"),
     ("0xA0b86991c6218b36c1d19D4a2e9Eb0cE3606eB48", "usd-coin"),
     ("0xaf88d065e77c8cC2239327C5EDb3A432268e5831", "usd-coin"),
     ("0xdAC17F958D2ee523a2206206994597C13D831ec7", "tether"),
     ("0xFd086bC7CD5C481DCC9C85ebE478A1C0b69FCbb9", "tether"),
     ("0x6B175474E89094C44Da98b954EedeAC495271d0F", "dai"),
     ("0xDA10009cBd5D07dd0CeCc66161FC93D7c9000da1", "dai"),
     ("0x2260FAC5E5542a773Aa44fBCfeDf7C193bc2C599", "wrapped-bitcoin"),
     ("0x2f2a2543B76A4166549F7aaB2e75Bef0aefC5B0f", "wrapped-bitcoin"),
     ("0x912CE59144191C1204E64559FE8253a0e49E6548", "arbitrum")]

/-- `self.COMMON_TOKENS[chain]["WETH"]` — the key exists for both
configured chains, so the `KeyError` case does not arise. -/
def weth_address (chain : Chain) : String :=
  ((CommonTokens chain).lookup "WETH").getD ""

/-- `self.COMMON_TOKENS[chain]["USDC"]` — the key exists for both
configured chains. -/
def usdc_address (chain : Chain) : String :=
  ((CommonTokens chain).lookup "USDC").getD ""

/-- The `stablecoins` list built in `_get_uniswap_price`:
`[COMMON_TOKENS[chain].get("USDC"), .get("USDT"), .get("DAI")]`
(`dict.get` is `List.lookup`, a missing key giving `None`). -/
def stablecoins (chain : Chain) : List (Option String) :=
  [(CommonTokens chain).lookup "USDC",
   (CommonTokens chain).lookup "USDT",
   (CommonTokens chain).lookup "DAI"]

/-- `Web3.to_checksum_address`, modelled as the identity: the model's
addresses are always in canonical checksummed form. -/
def to_checksum_address (address : String) : String := address

/-- The Uniswap V3 factory address hard-coded in
`_get_pool_price_for_tokens`. -/
def factory_address : String := "0x1F98431c8aD98523631AE4a59f267346ea31F984"

/-- The zero-address sentinel meaning "no pool at this fee tier". -/
def zero_address : String := "0x0000000000000000000000000000000000000000"

/-- One external invocation: either a CoinGecko HTTP quote request (for a
coin id) or a web3 contract call (method name and target contract). -/
inductive ExtEvent
  | quoteRequest (coinId : String)
  | chainCall (method : String) (target : String)
  deriving DecidableEq, Repr

/-- The chain capability: responses to the contract calls the price path
makes.  A `none` response models the call raising (caught by the
`except: continue` of `_get_pool_price_for_tokens`). -/
structure ChainOracle where
  getPool : String → String → ℕ → Option String
  poolToken0 : String → Option String
  poolToken1 : String → Option String
  decimals : String → Option ℕ
  slot0SqrtPrice : String → Option ℤ

/-- Python truthiness of an optional float price: `None` and `0.0` are
falsy, every other value truthy (`if price:` in the source). -/
def truthy : Option ℚ → Bool
  | none => false
  | some p => p != 0

/-- A price cache state: token address ↦ (price, timestamp), the
`_price_cache` dict. -/
def Cache := String → Option (ℚ × ℚ)

/-- `PriceFetcher._get_cached_price` at wall-clock time `now`. -/
def get_cached_price (cache : Cache) (now : ℚ) (token_address : String) :
    Option ℚ :=
  match cache token_address with
  | some (price, timestamp) =>
    if now - timestamp < 300 then some price else none
  | none => none

/-- `PriceFetcher._cache_price` at wall-clock time `now`. -/
def cache_price (cache : Cache) (token_address : String) (price : ℚ)
    (now : ℚ) : Cache :=
  fun a => if a = token_address then some (price, now) else cache a

/-- `PriceFetcher._get_coingecko_price`.  When the address has a CoinGecko
id, the HTTP request is issued unconditionally (and recorded); `cg` maps a
coin id to the parsed response, `none` covering HTTP failure and a missing
key alike (both return `None` in the source). -/
def get_coingecko_price (cg : String → Option ℚ) (token_address : String) :
    Option ℚ × List ExtEvent :=
  match coingecko_ids token_address with
  | none => (none, [])
  | some coin_id => (cg coin_id, [ExtEvent.quoteRequest coin_id])

/-- Outcome of one fee-tier iteration of `_get_pool_price_for_tokens`:
either the loop advances (`continue`, zero pool address, or a caught
exception), or the function returns (`done`, possibly with `None` for the
inverted-zero-price case). -/
inductive TierOutcome
  | next
  | done (r : Option ℚ)
  deriving DecidableEq, Repr

/-- The body of one fee-tier iteration of `_get_pool_price_for_tokens`,
with its event trace.  Every contract call is recorded before its
response is examined; a `none` response abandons the tier
(`except Exception: continue`). -/
def pool_tier (oracle : ChainOracle) (token0 token1 : String) (fee : ℕ) :
    TierOutcome × List ExtEvent :=
  let e0 := [ExtEvent.chainCall "getPool" factory_address]
  match oracle.getPool token0 token1 fee with
  | none => (.next, e0)
  | some pool_address =>
    if pool_address = zero_address then (.next, e0)
    else
      let e1 := e0 ++ [ExtEvent.chainCall "token0" pool_address]
      match oracle.poolToken0 pool_address with
      | none => (.next, e1)
      | some pool_token0 =>
        let e2 := e1 ++ [ExtEvent.chainCall "token1" pool_address]
        match oracle.poolToken1 pool_address with
        | none => (.next, e2)
        | some _pool_token1 =>
          let e3 := e2 ++ [ExtEvent.chainCall "decimals" pool_token0]
          match oracle.decimals pool_token0 with
          | none => (.next, e3)
          | some decimals0 =>
            let e4 := e3 ++ [ExtEvent.chainCall "decimals" _pool_token1]
            match oracle.decimals _pool_token1 with
            | none => (.next, e4)
            | some decimals1 =>
              let e5 := e4 ++ [ExtEvent.chainCall "slot0" pool_address]
              match oracle.slot0SqrtPrice pool_address with
              | none => (.next, e5)
              | some sqrt_price_x96 =>
                let price : ℚ :=
                  ((sqrt_price_x96 : ℚ) / 2 ^ 96) ^ 2
                    * 10 ^ decimals0 / 10 ^ decimals1
                if pool_token0.toLower = token0.toLower then
                  (.done (some price), e5)
                else if price > 0 then (.done (some (1 / price)), e5)
                else (.done none, e5)

/-- `PriceFetcher._get_pool_price_for_tokens`: iterate the fee tiers in
order, returning at the first tier that reaches the `return` statement. -/
def get_pool_price_for_tokens (oracle : ChainOracle)
    (token0 token1 : String) : List ℕ → Option ℚ × List ExtEvent
  | [] => (none, [])
  | fee :: rest =>
    match pool_tier oracle (to_checksum_address token0)
        (to_checksum_address token1) fee with
    | (.done r, e) => (r, e)
    | (.next, e) =>
      let t := get_pool_price_for_tokens oracle token0 token1 rest
      (t.1, e ++ t.2)

/-- `PriceFetcher._get_eth_price`: WETH/USDC pool at fee tiers
`[3000, 500]`. -/
def get_eth_price (oracle : ChainOracle) (chain : Chain) :
    Option ℚ × List ExtEvent :=
  get_pool_price_for_tokens oracle (weth_address chain) (usdc_address chain)
    [3000, 500]

/-- The trailing stablecoin loop of `_get_uniswap_price`:
`for stable in stablecoins: if stable: ... if price: return price`. -/
def stable_pair_loop (oracle : ChainOracle) (token_address : String) :
    List (Option String) → Option ℚ × List ExtEvent
  | [] => (none, [])
  | none :: rest => stable_pair_loop oracle token_address rest
  | some stable :: rest =>
    let t := get_pool_price_for_tokens oracle token_address stable
      [3000, 10000, 500, 100]
    if truthy t.1 then t
    else
      let t' := stable_pair_loop oracle token_address rest
      (t'.1, t.2 ++ t'.2)

/-- `PriceFetcher._get_uniswap_price`: stablecoin short-circuit, then the
WETH route, then direct stablecoin pairs. -/
def get_uniswap_price (oracle : ChainOracle) (chain : Chain)
    (token_address : String) : Option ℚ × List ExtEvent :=
  let token_address := to_checksum_address token_address
  if (stablecoins chain).contains (some token_address) then (some 1, [])
  else if token_address = weth_address chain then get_eth_price oracle chain
  else
    let tw := get_pool_price_for_tokens oracle token_address
      (weth_address chain) [3000, 10000, 500]
    if truthy tw.1 then
      let te := get_eth_price oracle chain
      if truthy te.1 then
        (some (tw.1.getD 0 * te.1.getD 0), tw.2 ++ te.2)
      else
        let ts := stable_pair_loop oracle token_address (stablecoins chain)
        (ts.1, tw.2 ++ te.2 ++ ts.2)
    else
      let ts := stable_pair_loop oracle token_address (stablecoins chain)
      (ts.1, tw.2 ++ ts.2)

/-- `PriceFetcher.get_token_price_usd`: cache, then CoinGecko, then
Uniswap pools; returns the resolved price (or `none`), the trace of
external invocations, and the updated cache. -/
def get_token_price_usd (cache : Cache) (now : ℚ)
    (cg : String → Option ℚ) (oracle : ChainOracle)
    (chain : Chain) (token_address : String) :
    Option ℚ × List ExtEvent × Cache :=
  let token_address := to_checksum_address token_address
  match get_cached_price cache now token_address with
  | some cached_price => (some cached_price, [], cache)
  | none =>
    let t1 := get_coingecko_price cg token_address
    if truthy t1.1 then
      (t1.1, t1.2, cache_price cache token_address (t1.1.getD 0) now)
    else
      let t2 := get_uniswap_price oracle chain token_address
      if truthy t2.1 then
        (t2.1, t1.2 ++ t2.2, cache_price cache token_address (t2.1.getD 0) now)
      else
        (none, t1.2 ++ t2.2, cache)

end LiquidityMgmt

namespace LiquidityMgmt

/-! ## Helper lemmas for the tick → sqrt-price conversion -/

/-- `√(1.0001 ^ t) = (√1.0001) ^ t` for an integer exponent. -/
theorem sqrt_zpow_eq (t : ℤ) :
    Real.sqrt ((1.0001 : ℝ) ^ t) = Real.sqrt 1.0001 ^ t := by
  have hx : (0 : ℝ) ≤ Real.sqrt 1.0001 := Real.sqrt_nonneg _
  have hself : Real.sqrt 1.0001 * Real.sqrt 1.0001 = 1.0001 :=
    Real.mul_self_sqrt (by norm_num)
  calc Real.sqrt ((1.0001 : ℝ) ^ t)
      = Real.sqrt ((Real.sqrt 1.0001 * Real.sqrt 1.0001) ^ t) := by rw [hself]
    _ = Real.sqrt (Real.sqrt 1.0001 ^ t * Real.sqrt 1.0001 ^ t) := by
        rw [mul_zpow]
    _ = Real.sqrt 1.0001 ^ t := Real.sqrt_mul_self (zpow_nonneg hx t)

/-- `1 + 1/20001 ≤ √1.0001`: the per-tick multiplicative gap of the
square-root price is bounded below. -/
theorem one_add_le_sqrt_base : (1 : ℝ) + 1 / 20001 ≤ Real.sqrt 1.0001 := by
  rw [Real.le_sqrt' (by norm_num)]
  norm_num

/-- `1.0001 ^ 443636 ≤ 2.7182818286 ^ 45`, via `log x ≤ x - 1` and the
decimal bound on `e`. -/
theorem pow_le_exp_bound :
    (1.0001 : ℝ) ^ (443636 : ℕ) ≤ (2.7182818286 : ℝ) ^ (45 : ℕ) := by
  have h1 : (1.0001 : ℝ) ^ (443636 : ℕ)
      = Real.exp ((443636 : ℕ) * Real.log 1.0001) := by
    rw [← Real.log_pow, Real.exp_log (by positivity)]
  have h2 : Real.log (1.0001 : ℝ) ≤ 0.0001 := by
    have h := Real.log_le_sub_one_of_pos (x := (1.0001 : ℝ)) (by norm_num)
    norm_num at h ⊢
    linarith
  have h3 : ((443636 : ℕ) : ℝ) * Real.log 1.0001 ≤ (45 : ℕ) * (1 : ℝ) := by
    have h := mul_le_mul_of_nonneg_left h2
      (by norm_num : (0 : ℝ) ≤ ((443636 : ℕ) : ℝ))
    norm_num at h ⊢
    linarith
  have h4 : Real.exp ((443636 : ℕ) * Real.log 1.0001)
      ≤ Real.exp ((45 : ℕ) * (1 : ℝ)) := Real.exp_le_exp.mpr h3
  have h5 : Real.exp ((45 : ℕ) * (1 : ℝ)) = Real.exp 1 ^ (45 : ℕ) :=
    Real.exp_nat_mul 1 45
  have h6 : Real.exp 1 ^ (45 : ℕ) ≤ (2.7182818286 : ℝ) ^ (45 : ℕ) :=
    pow_le_pow_left₀ (Real.exp_pos 1).le Real.exp_one_lt_d9.le 45
  calc (1.0001 : ℝ) ^ (443636 : ℕ)
      = Real.exp ((443636 : ℕ) * Real.log 1.0001) := h1
    _ ≤ Real.exp ((45 : ℕ) * (1 : ℝ)) := h4
    _ = Real.exp 1 ^ (45 : ℕ) := h5
    _ ≤ (2.7182818286 : ℝ) ^ (45 : ℕ) := h6

/-- Over the valid tick range, the real-valued sqrt price is at least
`20001` (before taking the floor). -/
theorem master_bound (t : ℤ) (ht : -887272 ≤ t) :
    (20001 : ℝ) ≤ Real.sqrt 1.0001 ^ t * 2 ^ 96 := by
  set x := Real.sqrt 1.0001 with hxdef
  have hgap : (1 : ℝ) + 1 / 20001 ≤ x := one_add_le_sqrt_base
  have hx1 : (1 : ℝ) ≤ x := by linarith
  have hx0 : (0 : ℝ) < x := by linarith
  have hxpow : x ^ (887272 : ℕ) = (1.0001 : ℝ) ^ (443636 : ℕ) := by
    have h : x ^ (887272 : ℕ) = (x ^ 2) ^ (443636 : ℕ) := by
      rw [← pow_mul]
    rw [h, Real.sq_sqrt (by norm_num : (0 : ℝ) ≤ 1.0001)]
  have hBpos : (0 : ℝ) < (2.7182818286 : ℝ) ^ (45 : ℕ) := by positivity
  have hB : x ^ (887272 : ℕ) ≤ (2.7182818286 : ℝ) ^ (45 : ℕ) := by
    rw [hxpow]; exact pow_le_exp_bound
  have hmono : x ^ (-887272 : ℤ) ≤ x ^ t := zpow_le_zpow_right₀ hx1 ht
  have hneg : x ^ (-887272 : ℤ) = (x ^ (887272 : ℕ))⁻¹ := by
    rw [zpow_neg]; norm_cast
  have hinv : ((2.7182818286 : ℝ) ^ (45 : ℕ))⁻¹ ≤ (x ^ (887272 : ℕ))⁻¹ :=
    inv_anti₀ (by positivity) hB
  have hfinal : (20001 : ℝ) ≤ ((2.7182818286 : ℝ) ^ (45 : ℕ))⁻¹ * 2 ^ 96 := by
    rw [inv_mul_eq_div, le_div_iff₀ hBpos]
    norm_num
  have step : (20001 : ℝ) ≤ x ^ (-887272 : ℤ) * 2 ^ 96 := by
    calc (20001 : ℝ) ≤ ((2.7182818286 : ℝ) ^ (45 : ℕ))⁻¹ * 2 ^ 96 := hfinal
      _ ≤ (x ^ (887272 : ℕ))⁻¹ * 2 ^ 96 := by
          exact mul_le_mul_of_nonneg_right hinv (by norm_num)
      _ = x ^ (-887272 : ℤ) * 2 ^ 96 := by rw [hneg]
  calc (20001 : ℝ) ≤ x ^ (-887272 : ℤ) * 2 ^ 96 := step
    _ ≤ x ^ t * 2 ^ 96 := mul_le_mul_of_nonneg_right hmono (by norm_num)

/-- Strict monotonicity of the tick → sqrt-price conversion: one tick up
moves the real value by a factor `√1.0001 ≥ 1 + 1/20001`, and the value
is at least `20001`, so the floor strictly increases. -/
theorem get_sqrt_ratio_at_tick_lt (s t : ℤ) (hs : -887272 ≤ s)
    (hst : s < t) : get_sqrt_ratio_at_tick s < get_sqrt_ratio_at_tick t := by
  unfold get_sqrt_ratio_at_tick
  rw [sqrt_zpow_eq, sqrt_zpow_eq]
  set x := Real.sqrt 1.0001 with hxdef
  have hgap : (1 : ℝ) + 1 / 20001 ≤ x := one_add_le_sqrt_base
  have hx1 : (1 : ℝ) ≤ x := by linarith
  have hx0 : (0 : ℝ) < x := by linarith
  have hA : (20001 : ℝ) ≤ x ^ s * 2 ^ 96 := master_bound s hs
  have hpos : (0 : ℝ) < x ^ s * 2 ^ 96 := by positivity
  have h1 : x ^ (s + 1) ≤ x ^ t := zpow_le_zpow_right₀ hx1 (by omega)
  have h2 : x ^ (s + 1) = x ^ s * x := zpow_add_one₀ (ne_of_gt hx0) s
  have h3 : (x ^ s * 2 ^ 96) * (1 + 1 / 20001) ≤ (x ^ s * 2 ^ 96) * x :=
    mul_le_mul_of_nonneg_left hgap hpos.le
  have h4 : x ^ s * 2 ^ 96 + 1 ≤ (x ^ s * 2 ^ 96) * (1 + 1 / 20001) := by
    nlinarith [hA]
  have h5 : (x ^ s * 2 ^ 96) * x ≤ x ^ t * 2 ^ 96 := by
    have h := mul_le_mul_of_nonneg_right h1 (by norm_num : (0 : ℝ) ≤ 2 ^ 96)
    rw [h2] at h
    linarith [h]
  have hstep : x ^ s * 2 ^ 96 + 1 ≤ x ^ t * 2 ^ 96 := by linarith
  calc ⌊x ^ s * 2 ^ 96⌋ < ⌊x ^ s * 2 ^ 96⌋ + 1 := lt_add_one _
    _ = ⌊x ^ s * 2 ^ 96 + 1⌋ := (Int.floor_add_one _).symm
    _ ≤ ⌊x ^ t * 2 ^ 96⌋ := Int.floor_le_floor hstep

/-- At tick 0 the conversion is exactly `2 ^ 96`. -/
theorem get_sqrt_ratio_at_tick_zero : get_sqrt_ratio_at_tick 0 = 2 ^ 96 := by
  unfold get_sqrt_ratio_at_tick
  rw [zpow_zero, Real.sqrt_one, one_mul]
  rw [show ((2 : ℝ) ^ 96) = (((2 ^ 96 : ℤ)) : ℝ) by push_cast; ring]
  exact Int.floor_intCast _

/-- Over the valid range the conversion is at least `20001`, in
particular strictly positive. -/
theorem get_sqrt_ratio_at_tick_lower (t : ℤ) (ht : -887272 ≤ t) :
    20001 ≤ get_sqrt_ratio_at_tick t := by
  unfold get_sqrt_ratio_at_tick
  rw [sqrt_zpow_eq]
  exact Int.le_floor.mpr (by push_cast; exact master_bound t ht)

/-- The conversion is non-negative at every integer tick. -/
theorem get_sqrt_ratio_at_tick_nonneg (t : ℤ) :
    0 ≤ get_sqrt_ratio_at_tick t := by
  unfold get_sqrt_ratio_at_tick
  apply Int.le_floor.mpr
  push_cast
  positivity

/-- For non-negative ticks the conversion is at least `2 ^ 96`. -/
theorem get_sqrt_ratio_at_tick_ge (t : ℤ) (ht : 0 ≤ t) :
    2 ^ 96 ≤ get_sqrt_ratio_at_tick t := by
  unfold get_sqrt_ratio_at_tick
  rw [sqrt_zpow_eq]
  apply Int.le_floor.mpr
  push_cast
  have hx1 : (1 : ℝ) ≤ Real.sqrt 1.0001 := by
    have h := one_add_le_sqrt_base
    linarith
  have h := one_le_zpow₀ hx1 ht
  nlinarith [h]

end LiquidityMgmt

namespace LiquidityMgmt

/-! ## Helper lemmas for the delta functions -/

/-- `_get_amount0_delta` sorts its sqrt arguments, so it is symmetric in
them (including the failure case). -/
theorem get_amount0_delta_comm (a b L : ℤ) :
    get_amount0_delta a b L = get_amount0_delta b a L := by
  unfold get_amount0_delta
  rcases lt_trichotomy a b with h | h | h
  · rw [if_neg (lt_asymm h), if_pos h]
  · rw [h]
  · rw [if_pos h, if_neg (lt_asymm h)]

/-- `_get_amount1_delta` sorts its sqrt arguments, so it is symmetric in
them. -/
theorem get_amount1_delta_comm (a b L : ℤ) :
    get_amount1_delta a b L = get_amount1_delta b a L := by
  unfold get_amount1_delta
  rcases lt_trichotomy a b with h | h | h
  · rw [if_neg (lt_asymm h), if_pos h]
  · rw [h]
  · rw [if_pos h, if_neg (lt_asymm h)]

/-- With positive sqrt arguments and non-negative liquidity,
`_get_amount0_delta` succeeds with a non-negative result. -/
theorem get_amount0_delta_pos_some (a b L : ℤ) (ha : 0 < a) (hb : 0 < b)
    (hL : 0 ≤ L) :
    ∃ v, get_amount0_delta a b L = some v ∧ 0 ≤ v := by
  unfold get_amount0_delta
  rcases le_or_lt a b with h | h
  · rw [if_neg (not_lt.mpr h)]
    refine ⟨(L * 2 ^ 96 * (b - a)).fdiv (b * a), ?_, ?_⟩
    · rw [if_neg (by positivity : ¬ ((b : ℤ) * a = 0))]
    · exact Int.fdiv_nonneg
        (mul_nonneg (mul_nonneg hL (by norm_num)) (by omega))
        (by positivity)
  · rw [if_pos h]
    refine ⟨(L * 2 ^ 96 * (a - b)).fdiv (a * b), ?_, ?_⟩
    · rw [if_neg (by positivity : ¬ ((a : ℤ) * b = 0))]
    · exact Int.fdiv_nonneg
        (mul_nonneg (mul_nonneg hL (by norm_num)) (by omega))
        (by positivity)

/-- When either sqrt argument is zero, the unguarded division of
`_get_amount0_delta` fails (`ZeroDivisionError`). -/
theorem get_amount0_delta_zero_none (a b L : ℤ) (h : a = 0 ∨ b = 0) :
    get_amount0_delta a b L = none := by
  unfold get_amount0_delta
  rcases le_or_lt a b with hab | hab
  · rw [if_neg (not_lt.mpr hab), if_pos (by rcases h with h | h <;> simp [h])]
  · rw [if_pos hab, if_pos (by rcases h with h | h <;> simp [h])]

/-- With non-negative liquidity, `_get_amount1_delta` is non-negative. -/
theorem get_amount1_delta_nonneg (a b L : ℤ) (hL : 0 ≤ L) :
    0 ≤ get_amount1_delta a b L := by
  unfold get_amount1_delta
  rcases le_or_lt a b with h | h
  · rw [if_neg (not_lt.mpr h)]
    exact Int.fdiv_nonneg (mul_nonneg hL (by omega)) (by norm_num)
  · rw [if_pos h]
    exact Int.fdiv_nonneg (mul_nonneg hL (by omega)) (by norm_num)

/-! ## Claims about the fixed-point math -/

/-- C2 (counterexample): at tick 887273, which is outside
[-887272, 887272], the spec's checked conversion fails, but the source's
`_get_sqrt_ratio_at_tick` performs no range validation and returns a
numeric result (at least `2 ^ 96`) instead of failing. -/
theorem C2_tick_range_counterexample :
    sqrt_price_at_tick_spec 887273 = none ∧
      2 ^ 96 ≤ get_sqrt_ratio_at_tick 887273 := by
  constructor
  · unfold sqrt_price_at_tick_spec
    rw [if_neg (by norm_num)]
  · exact get_sqrt_ratio_at_tick_ge 887273 (by norm_num)

/-- C2 (amended): the tick-to-sqrt-price conversion performs no range
check: it returns a (non-negative) numeric result at every integer tick,
and inside [-887272, 887272] it succeeds, agreeing with the spec's
checked conversion. -/
theorem C2_no_range_check (t : ℤ) :
    0 ≤ get_sqrt_ratio_at_tick t ∧
      (-887272 ≤ t → t ≤ 887272 →
        sqrt_price_at_tick_spec t = some (get_sqrt_ratio_at_tick t)) := by
  refine ⟨get_sqrt_ratio_at_tick_nonneg t, fun h1 h2 => ?_⟩
  unfold sqrt_price_at_tick_spec
  rw [if_pos ⟨h1, h2⟩]

/-- Witness for C2 (amended) at tick 5. -/
theorem C2_no_range_check_witness :
    0 ≤ get_sqrt_ratio_at_tick 5 ∧
      sqrt_price_at_tick_spec 5 = some (get_sqrt_ratio_at_tick 5) :=
  ⟨(C2_no_range_check 5).1,
    (C2_no_range_check 5).2 (by norm_num) (by norm_num)⟩

/-- C6: the tick-to-sqrt-price conversion is strictly increasing in the
tick over the valid range [-887272, 887272], and at tick 0 it returns
exactly `2 ^ 96`. -/
theorem C6_sqrt_ratio_strict_mono_and_unit :
    (∀ s t : ℤ, -887272 ≤ s → t ≤ 887272 → s < t →
      get_sqrt_ratio_at_tick s < get_sqrt_ratio_at_tick t) ∧
      get_sqrt_ratio_at_tick 0 = 2 ^ 96 :=
  ⟨fun s t hs _ hst => get_sqrt_ratio_at_tick_lt s t hs hst,
    get_sqrt_ratio_at_tick_zero⟩

/-- Witness for C6 at ticks 0 < 1. -/
theorem C6_sqrt_ratio_strict_mono_and_unit_witness :
    get_sqrt_ratio_at_tick 0 < get_sqrt_ratio_at_tick 1 ∧
      get_sqrt_ratio_at_tick 0 = 2 ^ 96 :=
  ⟨C6_sqrt_ratio_strict_mono_and_unit.1 0 1 (by norm_num) (by norm_num)
      (by norm_num),
    C6_sqrt_ratio_strict_mono_and_unit.2⟩

/-- C7: both delta functions are independent of the order of their two
sqrt-price arguments (they sort first), for every liquidity ≥ 0. -/
theorem C7_delta_order_independence (a b L : ℤ) (hL : 0 ≤ L) :
    get_amount0_delta a b L = get_amount0_delta b a L ∧
      get_amount1_delta a b L = get_amount1_delta b a L :=
  ⟨get_amount0_delta_comm a b L, get_amount1_delta_comm a b L⟩

/-- Witness for C7 at (2, 3, liquidity 5). -/
theorem C7_delta_order_independence_witness :
    get_amount0_delta 2 3 5 = get_amount0_delta 3 2 5 ∧
      get_amount1_delta 2 3 5 = get_amount1_delta 3 2 5 :=
  C7_delta_order_independence 2 3 5 (by norm_num)

/-- C10: with liquidity ≥ 0 and strictly positive sqrt arguments both
delta functions are total and non-negative; with a zero sqrt argument the
unguarded division of `amount0_delta` fails. -/
theorem C10_delta_totality (a b L : ℤ) :
    (0 ≤ L → 0 < a → 0 < b →
      (∃ v, get_amount0_delta a b L = some v ∧ 0 ≤ v) ∧
        0 ≤ get_amount1_delta a b L) ∧
      (a = 0 ∨ b = 0 → get_amount0_delta a b L = none) :=
  ⟨fun hL ha hb => ⟨get_amount0_delta_pos_some a b L ha hb hL,
      get_amount1_delta_nonneg a b L hL⟩,
    fun h => get_amount0_delta_zero_none a b L h⟩

/-- Witness for C10 at (2, 3, 5) and at the zero argument (0, 7, 1). -/
theorem C10_delta_totality_witness :
    ((∃ v, get_amount0_delta 2 3 5 = some v ∧ 0 ≤ v) ∧
        0 ≤ get_amount1_delta 2 3 5) ∧
      get_amount0_delta 0 7 1 = none :=
  ⟨(C10_delta_totality 2 3 5).1 (by norm_num) (by norm_num) (by norm_num),
    (C10_delta_totality 0 7 1).2 (Or.inl rfl)⟩

end LiquidityMgmt

namespace LiquidityMgmt

/-- C8: for a position with liquidity > 0 (ticks obeying the data-model
invariants `tick_lower < tick_upper` within [-887272, 887272]), when the
pool's current sqrt price equals the sqrt price at `tick_lower` exactly,
the computed `amount1` is 0 (price-below-range branch, taken because the
comparison is `<=`); when it equals the sqrt price at `tick_upper`
exactly, the computed `amount0` is 0. -/
theorem C8_boundary_amounts (L tick_lower tick_upper : ℤ) (d0 d1 : ℕ)
    (hL : 0 < L) (hlo : -887272 ≤ tick_lower) (hhi : tick_upper ≤ 887272)
    (hlt : tick_lower < tick_upper) :
    (∃ a0, calculate_position_amounts_from_liquidity L
        (get_sqrt_ratio_at_tick tick_lower) tick_lower tick_upper d0 d1
        = some (a0, 0)) ∧
      ∃ a1, calculate_position_amounts_from_liquidity L
        (get_sqrt_ratio_at_tick tick_upper) tick_lower tick_upper d0 d1
        = some (0, a1) := by
  have hlo' : -887272 ≤ tick_upper := le_trans hlo hlt.le
  have hapos : 0 < get_sqrt_ratio_at_tick tick_lower :=
    lt_of_lt_of_le (by norm_num) (get_sqrt_ratio_at_tick_lower _ hlo)
  have hbpos : 0 < get_sqrt_ratio_at_tick tick_upper :=
    lt_of_lt_of_le (by norm_num) (get_sqrt_ratio_at_tick_lower _ hlo')
  have hab : get_sqrt_ratio_at_tick tick_lower
      < get_sqrt_ratio_at_tick tick_upper :=
    get_sqrt_ratio_at_tick_lt _ _ hlo hlt
  obtain ⟨v, hv, _⟩ := get_amount0_delta_pos_some _ _ L hapos hbpos hL.le
  constructor
  · refine ⟨(v : ℚ) / 10 ^ d0, ?_⟩
    unfold calculate_position_amounts_from_liquidity
    rw [if_pos (le_refl _), hv]
    simp [zero_div]
  · refine ⟨(get_amount1_delta (get_sqrt_ratio_at_tick tick_lower)
      (get_sqrt_ratio_at_tick tick_upper) L : ℚ) / 10 ^ d1, ?_⟩
    unfold calculate_position_amounts_from_liquidity
    rw [if_neg (not_le.mpr hab), if_pos (le_refl _), zero_div]

/-- Witness for C8 at liquidity 1, ticks 0 < 1, decimals 0. -/
theorem C8_boundary_amounts_witness :
    (∃ a0, calculate_position_amounts_from_liquidity 1
        (get_sqrt_ratio_at_tick 0) 0 1 0 0 = some (a0, 0)) ∧
      ∃ a1, calculate_position_amounts_from_liquidity 1
        (get_sqrt_ratio_at_tick 1) 0 1 0 0 = some (0, a1) :=
  C8_boundary_amounts 1 0 1 0 0 (by norm_num) (by norm_num) (by norm_num)
    (by norm_num)

/-- C3: with liquidity == 0 the amounts are 0 for any tick range, price
and decimals — but the unclaimed-fee fields are the raw `tokens_owed`
values, NOT divided by `10 ^ decimals` (the `liquidity > 0` branch does
divide); at `tokens_owed0 = 5·10^18` with 18 decimals the claim's value
would be 5, the code's is 5·10^18. -/
theorem C3_zero_liquidity_fee_passthrough :
    (∀ (o0 o1 : ℚ) (tl tu : ℤ) (d0 d1 : ℕ) (sp : ℤ),
        calculate_position_amounts 0 o0 o1 tl tu d0 d1 sp
          = some ⟨0, 0, o0, o1⟩) ∧
      calculate_position_amounts 0 (5 * 10 ^ 18) 7 (-100) 100 18 18 (2 ^ 96)
        = some ⟨0, 0, 5 * 10 ^ 18, 7⟩ ∧
      (5 * 10 ^ 18 : ℚ) ≠ (5 * 10 ^ 18 : ℚ) / 10 ^ 18 := by
  refine ⟨fun o0 o1 tl tu d0 d1 sp => ?_, ?_, by norm_num⟩
  · unfold calculate_position_amounts
    rw [if_pos rfl]
  · unfold calculate_position_amounts
    rw [if_pos rfl]

end LiquidityMgmt

namespace LiquidityMgmt

/-- Python truthiness of an optional price, characterised. -/
theorem truthy_eq_true_iff (o : Option ℚ) :
    truthy o = true ↔ ∃ q, o = some q ∧ q ≠ 0 := by
  cases o <;> simp [truthy]

/-- An optional price is falsy exactly when it is `None` or `0.0`. -/
theorem truthy_eq_false_iff (o : Option ℚ) :
    truthy o = false ↔ o = none ∨ o = some 0 := by
  cases o <;> simp [truthy]

/-- A cache hit comes from a stored entry younger than the TTL. -/
theorem get_cached_price_eq_some (cache : Cache) (now : ℚ) (token : String)
    (p : ℚ) (h : get_cached_price cache now token = some p) :
    ∃ ts, cache token = some (p, ts) ∧ now - ts < 300 := by
  unfold get_cached_price at h
  cases hc : cache token with
  | none => rw [hc] at h; exact absurd h (by simp)
  | some pr =>
    obtain ⟨q, ts⟩ := pr
    rw [hc] at h
    dsimp only at h
    split_ifs at h with hts
    · injection h with h'
      subst h'
      exact ⟨ts, rfl, hts⟩

/-- Every fee-tier iteration records at least the `getPool` call. -/
theorem pool_tier_events_ne_nil (oracle : ChainOracle) (t0 t1 : String)
    (fee : ℕ) : (pool_tier oracle t0 t1 fee).2 ≠ [] := by
  unfold pool_tier
  repeat' split
  all_goals simp_all [apply_ite Prod.snd]

/-- With at least one fee tier, `_get_pool_price_for_tokens` always
issues at least one contract call. -/
theorem get_pool_price_events_ne_nil (oracle : ChainOracle)
    (t0 t1 : String) (fee : ℕ) (rest : List ℕ) :
    (get_pool_price_for_tokens oracle t0 t1 (fee :: rest)).2 ≠ [] := by
  unfold get_pool_price_for_tokens
  have he := pool_tier_events_ne_nil oracle (to_checksum_address t0)
    (to_checksum_address t1) fee
  cases h : pool_tier oracle (to_checksum_address t0)
      (to_checksum_address t1) fee with
  | mk outcome e =>
    rw [h] at he
    simp only at he
    cases outcome <;> simp [he]

end LiquidityMgmt

namespace LiquidityMgmt

/-- Every configured stablecoin address appears in `COINGECKO_IDS`
(for both chains). -/
theorem stablecoins_have_coingecko_id (chain : Chain) (token : String)
    (h : (stablecoins chain).contains (some token) = true) :
    (coingecko_ids token).isSome = true := by
  cases chain <;>
    · simp [stablecoins, CommonTokens, List.lookup] at h
      rcases h with h | h | h <;> subst h <;> rfl

/-- The wrapped-native (WETH) address of each chain appears in
`COINGECKO_IDS`. -/
theorem weth_has_coingecko_id (chain : Chain) :
    (coingecko_ids (weth_address chain)).isSome = true := by
  cases chain <;> rfl

/-- Inside the on-chain tier, a configured stablecoin short-circuits to
exactly 1.0 with no contract call. -/
theorem get_uniswap_price_stablecoin (oracle : ChainOracle) (chain : Chain)
    (token : String) (h : (stablecoins chain).contains (some token) = true) :
    get_uniswap_price oracle chain token = (some 1, []) := by
  have hm : some token ∈ stablecoins chain := by simpa using h
  unfold get_uniswap_price to_checksum_address
  simp [hm]

/-- On a fresh cache hit `get_token_price_usd` returns the cached price,
issues no external invocation and leaves the cache untouched. -/
theorem get_token_price_usd_cache_hit (cache : Cache) (now : ℚ)
    (cg : String → Option ℚ) (oracle : ChainOracle) (chain : Chain)
    (token : String) (p : ℚ)
    (h : get_cached_price cache now token = some p) :
    get_token_price_usd cache now cg oracle chain token
      = (some p, [], cache) := by
  unfold get_token_price_usd to_checksum_address
  simp [h]

/-- Unfolding equation for `get_token_price_usd` on a cache miss. -/
theorem get_token_price_usd_cache_miss (cache : Cache) (now : ℚ)
    (cg : String → Option ℚ) (oracle : ChainOracle) (chain : Chain)
    (token : String)
    (h : get_cached_price cache now token = none) :
    get_token_price_usd cache now cg oracle chain token
      = (let t1 := get_coingecko_price cg token
         if truthy t1.1 then
           (t1.1, t1.2, cache_price cache token (t1.1.getD 0) now)
         else
           let t2 := get_uniswap_price oracle chain token
           if truthy t2.1 then
             (t2.1, t1.2 ++ t2.2, cache_price cache token (t2.1.getD 0) now)
           else (none, t1.2 ++ t2.2, cache)) := by
  unfold get_token_price_usd to_checksum_address
  simp [h]

end LiquidityMgmt

namespace LiquidityMgmt

/-- A token with no CoinGecko id is neither a configured stablecoin nor
WETH, so the on-chain tier always issues at least one contract call. -/
theorem get_uniswap_price_events_ne_nil (oracle : ChainOracle)
    (chain : Chain) (token : String)
    (hnone : coingecko_ids token = none) :
    (get_uniswap_price oracle chain token).2 ≠ [] := by
  have hst : some token ∉ stablecoins chain := by
    intro hm
    have h := stablecoins_have_coingecko_id chain token (by simpa using hm)
    rw [hnone] at h
    exact absurd h (by simp)
  have hweth : token ≠ weth_address chain := by
    intro he
    have h := weth_has_coingecko_id chain
    rw [← he, hnone] at h
    exact absurd h (by simp)
  have hpool := get_pool_price_events_ne_nil oracle token
    (weth_address chain) 3000 [10000, 500]
  have hc : ¬((stablecoins chain).contains (some token) = true) := by
    simpa using hst
  unfold get_uniswap_price to_checksum_address
  dsimp only
  rw [if_neg hc, if_neg hweth]
  split_ifs <;> simp [List.append_eq_nil, hpool]

/-- On any cache miss, the resolution pipeline invokes at least one
external source (quote request or contract call). -/
theorem events_ne_nil_of_cache_miss (cache : Cache) (now : ℚ)
    (cg : String → Option ℚ) (oracle : ChainOracle) (chain : Chain)
    (token : String)
    (h : get_cached_price cache now token = none) :
    (get_token_price_usd cache now cg oracle chain token).2.1 ≠ [] := by
  rw [get_token_price_usd_cache_miss cache now cg oracle chain token h]
  cases hcg : coingecko_ids token with
  | some cid =>
    have h1 : get_coingecko_price cg token = (cg cid, [.quoteRequest cid]) := by
      unfold get_coingecko_price
      rw [hcg]
    simp only [h1]
    split_ifs <;> simp
  | none =>
    have h1 : get_coingecko_price cg token = (none, []) := by
      unfold get_coingecko_price
      rw [hcg]
    have h2 := get_uniswap_price_events_ne_nil oracle chain token hcg
    simp only [h1, truthy, Bool.false_eq_true, if_false]
    split_ifs <;> simpa using h2

end LiquidityMgmt

namespace LiquidityMgmt

/-- C9: a price cached less than 300 seconds ago is returned as is, with
no external invocation and no cache change; once the entry's age reaches
300 seconds the cache read treats it as absent and the call invokes the
external sources again (non-empty event trace). -/
theorem C9_cache_ttl (cache : Cache) (now : ℚ) (cg : String → Option ℚ)
    (oracle : ChainOracle) (chain : Chain) (token : String) (p ts : ℚ)
    (hentry : cache token = some (p, ts)) :
    (now - ts < 300 →
      get_token_price_usd cache now cg oracle chain token
        = (some p, [], cache)) ∧
      (300 ≤ now - ts →
        get_cached_price cache now token = none ∧
          (get_token_price_usd cache now cg oracle chain token).2.1 ≠ []) := by
  constructor
  · intro hfresh
    apply get_token_price_usd_cache_hit
    unfold get_cached_price
    rw [hentry]
    dsimp only
    rw [if_pos hfresh]
  · intro hexp
    have hmiss : get_cached_price cache now token = none := by
      unfold get_cached_price
      rw [hentry]
      dsimp only
      rw [if_neg (not_lt.mpr hexp)]
    exact ⟨hmiss,
      events_ne_nil_of_cache_miss cache now cg oracle chain token hmiss⟩

/-- Witness for C9: an entry stored at time 0 is served at time 100 with
no events, and is expired at time 400. -/
theorem C9_cache_ttl_witness :
    (get_token_price_usd (fun a => if a = "T" then some (2, 0) else none)
        100 (fun _ => none)
        ⟨fun _ _ _ => none, fun _ => none, fun _ => none, fun _ => none,
          fun _ => none⟩ Chain.ethereum "T"
      = (some 2, [], fun a => if a = "T" then some (2, 0) else none)) ∧
      (get_cached_price (fun a => if a = "T" then some (2, 0) else none)
          400 "T" = none ∧
        (get_token_price_usd (fun a => if a = "T" then some (2, 0) else none)
            400 (fun _ => none)
            ⟨fun _ _ _ => none, fun _ => none, fun _ => none, fun _ => none,
              fun _ => none⟩ Chain.ethereum "T").2.1 ≠ []) :=
  ⟨(C9_cache_ttl (fun a => if a = "T" then some (2, 0) else none) 100
      (fun _ => none)
      ⟨fun _ _ _ => none, fun _ => none, fun _ => none, fun _ => none,
        fun _ => none⟩ Chain.ethereum "T" 2 0 rfl).1 (by norm_num),
    (C9_cache_ttl (fun a => if a = "T" then some (2, 0) else none) 400
      (fun _ => none)
      ⟨fun _ _ _ => none, fun _ => none, fun _ => none, fun _ => none,
        fun _ => none⟩ Chain.ethereum "T" 2 0 rfl).2 (by norm_num)⟩

end LiquidityMgmt

namespace LiquidityMgmt

/-- C1 (counterexample): with a cold cache, resolving the configured
ethereum stablecoin USDC issues a CoinGecko quote request first, and when
that request succeeds (here with price 2) its result — not 1.0 — is
returned. -/
theorem C1_stablecoin_counterexample :
    (get_token_price_usd (fun _ => none) 0 (fun _ => some 2)
        ⟨fun _ _ _ => none, fun _ => none, fun _ => none, fun _ => none,
          fun _ => none⟩ Chain.ethereum
        "0xA0b86991c6218b36c1d19D4a2e9Eb0cE3606eB48").1 = some 2 ∧
      (get_token_price_usd (fun _ => none) 0 (fun _ => some 2)
          ⟨fun _ _ _ => none, fun _ => none, fun _ => none, fun _ => none,
            fun _ => none⟩ Chain.ethereum
          "0xA0b86991c6218b36c1d19D4a2e9Eb0cE3606eB48").2.1
        = [ExtEvent.quoteRequest "usd-coin"] ∧
      (2 : ℚ) ≠ 1 := by
  refine ⟨?_, ?_, by norm_num⟩ <;> rfl

/-- C1 (amended): with no fresh cache entry and a quote source that
yields no price, a configured stablecoin resolves to exactly 1.0 and the
only external invocation is the single quote request (no pool query). -/
theorem C1_stablecoin_after_quote_miss (cache : Cache) (now : ℚ)
    (cg : String → Option ℚ) (oracle : ChainOracle) (chain : Chain)
    (token : String)
    (hst : (stablecoins chain).contains (some token) = true)
    (hmiss : get_cached_price cache now token = none)
    (hcg : ∀ cid, cg cid = none) :
    (get_token_price_usd cache now cg oracle chain token).1 = some 1 ∧
      ∃ cid, coingecko_ids token = some cid ∧
        (get_token_price_usd cache now cg oracle chain token).2.1
          = [ExtEvent.quoteRequest cid] := by
  obtain ⟨cid, hcid⟩ := Option.isSome_iff_exists.mp
    (stablecoins_have_coingecko_id chain token hst)
  have h1 : get_coingecko_price cg token
      = (none, [ExtEvent.quoteRequest cid]) := by
    unfold get_coingecko_price
    rw [hcid]
    dsimp only
    rw [hcg]
  have h2 := get_uniswap_price_stablecoin oracle chain token hst
  rw [get_token_price_usd_cache_miss cache now cg oracle chain token hmiss]
  dsimp only
  refine ⟨?_, cid, hcid, ?_⟩ <;> simp [h1, h2, truthy]

/-- Witness for C1 (amended) at ethereum USDC with all sources empty. -/
theorem C1_stablecoin_after_quote_miss_witness :
    (get_token_price_usd (fun _ => none) 0 (fun _ => none)
        ⟨fun _ _ _ => none, fun _ => none, fun _ => none, fun _ => none,
          fun _ => none⟩ Chain.ethereum
        "0xA0b86991c6218b36c1d19D4a2e9Eb0cE3606eB48").1 = some 1 ∧
      ∃ cid, coingecko_ids "0xA0b86991c6218b36c1d19D4a2e9Eb0cE3606eB48"
          = some cid ∧
        (get_token_price_usd (fun _ => none) 0 (fun _ => none)
            ⟨fun _ _ _ => none, fun _ => none, fun _ => none, fun _ => none,
              fun _ => none⟩ Chain.ethereum
            "0xA0b86991c6218b36c1d19D4a2e9Eb0cE3606eB48").2.1
          = [ExtEvent.quoteRequest cid] :=
  C1_stablecoin_after_quote_miss (fun _ => none) 0 (fun _ => none)
    ⟨fun _ _ _ => none, fun _ => none, fun _ => none, fun _ => none,
      fun _ => none⟩ Chain.ethereum
    "0xA0b86991c6218b36c1d19D4a2e9Eb0cE3606eB48" rfl rfl (fun _ => rfl)

end LiquidityMgmt

namespace LiquidityMgmt

/-- C4 (counterexample): the quote source successfully resolves the price
0 for WBTC, yet `get_token_price_usd` treats the zero as falsy, continues,
and ends with `None` — the zero price is not returned. -/
theorem C4_zero_price_counterexample :
    get_coingecko_price (fun _ => some 0)
        "0x2260FAC5E5542a773Aa44fBCfeDf7C193bc2C599"
      = (some 0, [ExtEvent.quoteRequest "wrapped-bitcoin"]) ∧
      (get_token_price_usd (fun _ => none) 0 (fun _ => some 0)
          ⟨fun _ _ _ => none, fun _ => none, fun _ => none, fun _ => none,
            fun _ => none⟩ Chain.ethereum
          "0x2260FAC5E5542a773Aa44fBCfeDf7C193bc2C599").1 = none :=
  ⟨rfl, rfl⟩

/-- C4 (amended): provided the cache holds no zero price (an invariant
the writes preserve), `get_token_price_usd` never returns the number 0 —
exhaustion is always the explicit absent value — and the updated cache
again holds no zero price. -/
theorem C4_unavailable_is_none (cache : Cache) (now : ℚ)
    (cg : String → Option ℚ) (oracle : ChainOracle) (chain : Chain)
    (token : String)
    (hcache : ∀ a q ts, cache a = some (q, ts) → q ≠ 0) :
    (get_token_price_usd cache now cg oracle chain token).1 ≠ some 0 ∧
      ∀ a q ts,
        (get_token_price_usd cache now cg oracle chain token).2.2 a
          = some (q, ts) → q ≠ 0 := by
  cases hc : get_cached_price cache now token with
  | some p =>
    obtain ⟨ts, hct, -⟩ := get_cached_price_eq_some cache now token p hc
    have hp : p ≠ 0 := hcache token p ts hct
    rw [get_token_price_usd_cache_hit cache now cg oracle chain token p hc]
    exact ⟨by simpa using hp, hcache⟩
  | none =>
    rw [get_token_price_usd_cache_miss cache now cg oracle chain token hc]
    dsimp only
    split_ifs with h1 h2
    · obtain ⟨q, hq, hq0⟩ := (truthy_eq_true_iff _).mp h1
      refine ⟨by rw [hq]; simpa using hq0, ?_⟩
      intro a q' ts' ha
      unfold cache_price at ha
      dsimp only at ha
      split_ifs at ha with hat
      · rw [hq] at ha
        dsimp only [Option.getD] at ha
        injection ha with ha'
        have hfst : q = q' := congrArg Prod.fst ha'
        rw [← hfst]
        exact hq0
      · exact hcache a q' ts' ha
    · obtain ⟨q, hq, hq0⟩ := (truthy_eq_true_iff _).mp h2
      refine ⟨by rw [hq]; simpa using hq0, ?_⟩
      intro a q' ts' ha
      unfold cache_price at ha
      dsimp only at ha
      split_ifs at ha with hat
      · rw [hq] at ha
        dsimp only [Option.getD] at ha
        injection ha with ha'
        have hfst : q = q' := congrArg Prod.fst ha'
        rw [← hfst]
        exact hq0
      · exact hcache a q' ts' ha
    · exact ⟨by simp, hcache⟩

/-- Witness for C4 (amended) on an empty cache and empty sources. -/
theorem C4_unavailable_is_none_witness :
    (get_token_price_usd (fun _ => none) 0 (fun _ => none)
        ⟨fun _ _ _ => none, fun _ => none, fun _ => none, fun _ => none,
          fun _ => none⟩ Chain.ethereum "X").1 ≠ some 0 ∧
      ∀ a q ts,
        (get_token_price_usd (fun _ => none) 0 (fun _ => none)
            ⟨fun _ _ _ => none, fun _ => none, fun _ => none, fun _ => none,
              fun _ => none⟩ Chain.ethereum "X").2.2 a
          = some (q, ts) → q ≠ 0 :=
  C4_unavailable_is_none (fun _ => none) 0 (fun _ => none)
    ⟨fun _ _ _ => none, fun _ => none, fun _ => none, fun _ => none,
      fun _ => none⟩ Chain.ethereum "X"
    (fun a q ts h => absurd h (by simp))

end LiquidityMgmt
